import Mathlib

/-!
Verification of the iq-bot template-expansion and cache-key engine.

The definitions below are a shallow embedding of the Python sources:

* iq-bot-global/src/iq_bot_global/utils.py
  (extract_context_params, find_param_in_dict,
   format_template_with_nested_params, validate_template_params,
   extract_template_params, generate_param_combinations)
* iq-bot-global/src/iq_bot_global/services/redis_service.py (RedisService)
* iq-bot-writer/src/services/prompt_service.py
  (PromptService.generate_prompts_from_template, id derivation part)
* iq-bot-writer/src/services/writer_service.py
  (WriterService._build_context, _get_context_data, _get_api_data,
   _build_prompt_data, _build_prompt, _process_cached_prompt)

Python dictionaries are embedded as association lists in insertion order
with unique keys assumed where Python guarantees them; JSON-ish values as
the inductive type Value; fallible code as Except; external collaborators
(Redis client, API client, OpenAI, text files) as explicit oracle
functions, with the observable calls recorded in an event trace.
-/

namespace IqBot

/-- Embeds the dynamically typed values the Python code passes around
(JSON scalars, dicts and lists).  Scalars that matter to the verified
code paths are strings and integers. -/
inductive Value where
  | str (s : String) : Value
  | int (n : Int) : Value
  | dict (entries : List (String × Value)) : Value
  | list (elems : List Value) : Value

/-- Embeds a Python dict lookup (d[k] / k in d) on an association list;
Python dict keys are unique, so first match is the match. -/
def lookupKey (k : String) : List (String × Value) → Option Value
  | [] => none
  | (k₂, v) :: rest => if k₂ = k then some v else lookupKey k rest

mutual
/-- Models the textual form Python str() gives a value.  The exact
punctuation used for composite values is immaterial to every property
proved in this file; str() of a string is the string itself and str()
of an int is its decimal form, which is what the code relies on. -/
def pyStr : Value → String
  | .str s => s
  | .int n => toString n
  | .dict es => "\x7b" ++ pyStrEntries es ++ "\x7d"
  | .list vs => "[" ++ pyStrElems vs ++ "]"

/-- Renders dict entries for pyStr. -/
def pyStrEntries : List (String × Value) → String
  | [] => ""
  | [(k, v)] => k ++ ": " ++ pyStr v
  | (k, v) :: rest => k ++ ": " ++ pyStr v ++ ", " ++ pyStrEntries rest

/-- Renders list elements for pyStr. -/
def pyStrElems : List Value → String
  | [] => ""
  | [v] => pyStr v
  | v :: rest => pyStr v ++ ", " ++ pyStrElems rest
end

/-- Embeds Python str.rstrip applied with a single character: removes
every trailing occurrence of that character. -/
def rstripChar (c : Char) (s : String) : String :=
  String.mk ((s.data.reverse.dropWhile (· = c)).reverse)

/-- Scans for the closing brace of a format field: on success returns the
field body (the characters before the first unmatched close brace) and
the input after that brace. -/
def takeField : List Char → Option (List Char × List Char)
  | [] => none
  | c :: rest =>
    if c = '}' then some ([], rest)
    else (takeField rest).map (fun p => (c :: p.1, p.2))

theorem takeField_length {l : List Char} :
    ∀ {p : List Char × List Char}, takeField l = some p → p.2.length < l.length := by
  induction l with
  | nil => intro p h; simp [takeField] at h
  | cons c l ih =>
    intro p h
    simp only [takeField] at h
    split at h
    · cases h
      simp
    · cases htf : takeField l with
      | none => rw [htf] at h; simp at h
      | some q =>
        rw [htf] at h
        simp only [Option.map_some', Option.some.injEq] at h
        have hq := ih htf
        have : p.2 = q.2 := by rw [← h]
        rw [this]
        exact Nat.lt_trans hq (by simp)

/-- Embeds the scan re.findall(pattern, s) performs for the pattern used
by extract_template_params: at each open brace take the maximal nonempty
run of non-close-brace characters followed by a close brace; on a match
resume after the close brace, otherwise resume at the next character. -/
def extractLoop : List Char → List String
  | [] => []
  | c :: rest =>
    if c = '{' then
      match h : takeField rest with
      | some (inner, rest₂) =>
        if inner.isEmpty then extractLoop rest
        else String.mk inner :: extractLoop rest₂
      | none => extractLoop rest
    else extractLoop rest
termination_by l => l.length
decreasing_by
  · simp
  · simp only [List.length_cons]
    exact Nat.lt_trans (takeField_length h) (Nat.lt_succ_self _)
  · simp
  · simp

mutual
/-- Embeds find_param_in_dict from iq_bot_global/utils.py.  Check the
direct keys first; on a direct match whose value is itself a dict with
the same key inside, return that inner value, else the matched value;
with no direct match walk the entries in order, recursing into dict
values and into dict elements of list values, first match wins.  The
Python (found, value) pair is embedded as Option Value. -/
def find_param_in_dict (param_name : String) : Value → Option Value
  | .dict entries =>
    match lookupKey param_name entries with
    | some v =>
      match v with
      | .dict inner =>
        match lookupKey param_name inner with
        | some sub => some sub
        | none => some (.dict inner)
      | _ => some v
    | none => findInEntries param_name entries
  | _ => none

/-- Embeds the recursive for-loop of find_param_in_dict over the items of
a dict, in declaration order. -/
def findInEntries (param_name : String) : List (String × Value) → Option Value
  | [] => none
  | (_, v) :: rest =>
    match v with
    | .dict es =>
      match find_param_in_dict param_name (.dict es) with
      | some r => some r
      | none => findInEntries param_name rest
    | .list vs =>
      match findInList param_name vs with
      | some r => some r
      | none => findInEntries param_name rest
    | _ => findInEntries param_name rest

/-- Embeds the inner for-loop of find_param_in_dict over the elements of
a list value: only dict elements are searched. -/
def findInList (param_name : String) : List Value → Option Value
  | [] => none
  | v :: rest =>
    match v with
    | .dict es =>
      match find_param_in_dict param_name (.dict es) with
      | some r => some r
      | none => findInList param_name rest
    | _ => findInList param_name rest
end

mutual
/-- Specification-side companion of find_param_in_dict: collects, in the
same depth-first declaration order, every value the resolver could
return for the placeholder, without stopping at the first one.  Used to
state that the resolver returns the first match of the traversal. -/
def dfsMatches (param_name : String) : Value → List Value
  | .dict entries =>
    match lookupKey param_name entries with
    | some v =>
      match v with
      | .dict inner =>
        match lookupKey param_name inner with
        | some sub => [sub]
        | none => [.dict inner]
      | _ => [v]
    | none => dfsEntries param_name entries
  | _ => []

/-- Collects the matches contributed by each entry of a dict, in
declaration order. -/
def dfsEntries (param_name : String) : List (String × Value) → List Value
  | [] => []
  | (_, v) :: rest =>
    (match v with
     | .dict es => dfsMatches param_name (.dict es)
     | .list vs => dfsList param_name vs
     | _ => []) ++ dfsEntries param_name rest

/-- Collects the matches contributed by the dict elements of a list
value, in order. -/
def dfsList (param_name : String) : List Value → List Value
  | [] => []
  | v :: rest =>
    (match v with
     | .dict es => dfsMatches param_name (.dict es)
     | _ => []) ++ dfsList param_name rest
end

/-- Classifies the exceptions Python str.format raises on the template
strings this engine can meet: KeyError carries the missing argument
name, ValueError covers stray, unclosed or nested braces, IndexError is
the auto-numbered empty field that receives no positional argument. -/
inductive FormatError where
  | keyError (name : String)
  | valueError (msg : String)
  | indexError

/-- Renders a format failure the way the callers that catch it as a
generic exception see it: the raised exception's text. -/
def FormatError.pymsg : FormatError → String
  | .keyError name => "KeyError: " ++ name
  | .valueError m => "ValueError: " ++ m
  | .indexError => "IndexError: replacement index out of range"

/-- Embeds Python str.format(**args) as this repository drives it,
following CPython's markup scanner: a doubled brace is an escape for a
literal brace, a single close brace outside a field and an unclosed or
brace-nested field raise ValueError, an empty field raises IndexError
(auto-numbering with no positional arguments supplied), and a named
field is substituted with str() of its argument or raises KeyError with
the missing name.  A field body is looked up as one plain argument name;
format-spec and access syntax inside a field (colon, conversion, dot,
index), which no template of this repository uses, is not given its
CPython meaning, so theorems that quantify over arbitrary strings guard
themselves with simpleNamedFields. -/
def pyFormatLoop (args : List (String × Value)) : List Char → Except FormatError String
  | [] => .ok ""
  | c :: rest =>
    if c = '{' then
      if rest.head? = some '{' then
        (pyFormatLoop args rest.tail).map (fun s => "\x7b" ++ s)
      else
        match h : takeField rest with
        | none => .error (.valueError "expected close brace before end of string")
        | some (inner, rest₂) =>
          if inner.any (fun ch => ch = '{') then
            .error (.valueError "unexpected open brace in field name")
          else if inner.isEmpty then .error .indexError
          else
            match lookupKey (String.mk inner) args with
            | some v => (pyFormatLoop args rest₂).map (fun s => pyStr v ++ s)
            | none => .error (.keyError (String.mk inner))
    else if c = '}' then
      if rest.head? = some '}' then
        (pyFormatLoop args rest.tail).map (fun s => "\x7d" ++ s)
      else .error (.valueError "single close brace encountered in format string")
    else (pyFormatLoop args rest).map (fun s => String.mk [c] ++ s)
termination_by l => l.length
decreasing_by
  all_goals simp only [List.length_cons, List.length_tail]
  all_goals first
    | omega
    | exact Nat.lt_trans (takeField_length h) (Nat.lt_succ_self _)

/-- Allowed characters of a plain field name: no braces and none of the
characters CPython's replacement-field grammar treats specially
(conversion marker, format-spec colon, attribute dot, index brackets). -/
def plainNameChar (c : Char) : Bool :=
  !(c = '{' || c = '}' || c = ':' || c = '!' || c = '.' || c = '[' || c = ']')

/-- Recognizes the format strings whose brace structure is exactly the
fragment this repository's templates use: literal text without stray
braces or escapes, and non-empty plain-named fields.  On this fragment
the embedded formatter coincides with CPython's str.format character for
character. -/
def simpleNamedFields : List Char → Bool
  | [] => true
  | c :: rest =>
    if c = '{' then
      match h : takeField rest with
      | none => false
      | some (inner, rest₂) =>
        !inner.isEmpty && inner.all plainNameChar && simpleNamedFields rest₂
    else if c = '}' then false
    else simpleNamedFields rest
termination_by l => l.length
decreasing_by
  all_goals simp only [List.length_cons]
  all_goals first
    | omega
    | exact Nat.lt_trans (takeField_length h) (Nat.lt_succ_self _)

/-- Embeds generate_param_combinations from iq_bot_global/utils.py.  The
input dict is an association list of parameter names to candidate value
lists in insertion order; combinations are built exactly as the Python
loops do, every existing combination extended with each value of the
next parameter; an empty input, or an empty final combination list,
yields the single empty combination. -/
def generate_param_combinations (data_sources : List (String × List Value)) :
    List (List (String × Value)) :=
  match data_sources with
  | [] => [[]]
  | (param_name, values) :: items =>
    let first := values.map (fun v => [(param_name, v)])
    let combinations := items.foldl
      (fun combos pv =>
        combos.flatMap (fun combo => pv.2.map (fun v => combo ++ [(pv.1, v)]))) first
    if combinations.isEmpty then [[]] else combinations

/-- Specification-side nested-loop Cartesian product in the order the
spec describes it: parameters in supplied order, the first parameter
varying slowest and the last-added parameter varying fastest. -/
def cartesianProduct : List (String × List Value) → List (List (String × Value))
  | [] => [[]]
  | (param_name, values) :: items =>
    values.flatMap (fun v =>
      (cartesianProduct items).map (fun combo => (param_name, v) :: combo))

/-- Embeds the identity string the id-derivation loop of
PromptService.generate_prompts_from_template takes from one parameter
value: the id field of a dict value that has one, else str() of the
value. -/
def identityString (v : Value) : String :=
  match v with
  | .dict es =>
    match lookupKey "id" es with
    | some idv => pyStr idv
    | none => pyStr (.dict es)
  | _ => pyStr v

/-- Embeds Python sorted() on strings (lexicographic by code point);
insertion sort is the executable model of the sort. -/
def pySorted (l : List String) : List String :=
  List.insertionSort (· ≤ ·) l

/-- Embeds the id derivation of
PromptService.generate_prompts_from_template (prompt_service.py
120-131): uuid5 is the name-based UUID construction of the Python uuid
module, embedded as an arbitrary function of the namespace (the
template id) and the name; the name is the colon-joined,
lexicographically sorted list of parameter identity strings, or the
sentinel "default" when there are none. -/
def derive_prompt_id (uuid5 : String → String → String) (template_id : String)
    (params : List (String × Value)) : String :=
  let id_parts := params.map (fun p => identityString p.2)
  uuid5 template_id
    (if id_parts.isEmpty then "default" else String.intercalate ":" (pySorted id_parts))

/-- Embeds Python dict assignment d[k] = v on an association list: an
existing key keeps its position and receives the new value, a new key is
appended at the end. -/
def dictSet (k : String) (v : Value) : List (String × Value) → List (String × Value)
  | [] => [(k, v)]
  | (k₂, v₂) :: rest => if k₂ = k then (k, v) :: rest else (k₂, v₂) :: dictSet k v rest

/-- Specification-side dict builder: the dict reached by performing the
assignments of the given key-value list in order, starting empty. -/
def pythonDictOf (l : List (String × Value)) : List (String × Value) :=
  l.foldl (fun d kv => dictSet kv.1 kv.2 d) []

/-- Embeds one entry of the promptContexts array handed to
extract_context_params: a context name and its list of values. -/
structure PromptContext where
  name : String
  values : List Value

instance : Inhabited Value := ⟨.str ""⟩

/-- Embeds extract_context_params from iq_bot_global/utils.py: start from
the prompt id stored under the key id, then for each context in order
strip every trailing s from its name, skip it when it carries no values,
and store its first value, later assignments overwriting earlier ones as
in a Python dict. -/
def extract_context_params (prompt_id : Value) (prompt_contexts : List PromptContext) :
    List (String × Value) :=
  prompt_contexts.foldl
    (fun params ctx =>
      if ctx.values.isEmpty then params
      else dictSet (rstripChar 's' ctx.name) ctx.values.headI params)
    [("id", prompt_id)]

/-- Embeds the promptContexts structure WriterService._build_context
builds from the stored prompt record: one context per record field, the
value wrapped in a singleton list when it is not already a list. -/
def formatted_contexts (prompt_data : List (String × Value)) : List PromptContext :=
  prompt_data.map (fun kv =>
    { name := kv.1,
      values := match kv.2 with
                | .list vs => vs
                | v => [v] })

/-- Embeds WriterService._build_context: extract the parameters from the
record fields (a record without an id raises KeyError, embedded as an
error) and format the record's cache_key template with them when the
record has one; stored records always hold string cache_key fields, so
formatting applies to the field's textual form. -/
def build_context (prompt_data : List (String × Value)) :
    Except String (List (String × Value) × Option String) :=
  match lookupKey "id" prompt_data with
  | none => .error "KeyError: id"
  | some idv =>
    let params := extract_context_params idv (formatted_contexts prompt_data)
    match lookupKey "cache_key" prompt_data with
    | some ck =>
      match pyFormatLoop params (pyStr ck).data with
      | .ok key => .ok (params, some key)
      | .error fe => .error fe.pymsg
    | none => .ok (params, none)

/-- Observable calls the orchestrator makes on its collaborators. -/
inductive Event where
  | cacheGet (key : String)
  | apiCall (context_key : String)
  | generate
  | cacheSet (key : String) (value : String) (ttl : Value)

/-- Oracle view of the external collaborators of the orchestrator: the
cache store's get results, the API client's operations (declared
argument names and behavior), the generation call, the per-topic content
template files, the shared system template and the style guide. -/
structure World where
  cache : String → Option String
  apiSignature : String → Option (List String)
  apiCall : String → List (String × Value) → Except String Value
  generateText : String → String → Except String String
  contentTemplate : String → Option String
  systemTemplate : String
  styleGuide : String

/-- Embeds the argument mapping of WriterService._get_context_data: each
declared argument of the API method takes the equally named parameter
or, for an argument ending in _id, the parameter named by the base
without that suffix; unmatched arguments are simply not passed. -/
def build_call_params (method_params : List String) (params : List (String × Value)) :
    List (String × Value) :=
  method_params.filterMap (fun pn =>
    match lookupKey pn params with
    | some v => some (pn, v)
    | none =>
      if pn.endsWith "_id" then
        match lookupKey (pn.dropRight 3) params with
        | some v => some (pn, v)
        | none => none
      else none)

/-- Embeds WriterService._get_context_data: an unknown operation name
(the AttributeError branch) and a failing call (the generic except
branch) both surface as ValueError, embedded as Except.error; a
successful call returns the raw response. -/
def get_context_data (w : World) (context_key : String) (params : List (String × Value)) :
    Except String Value :=
  match w.apiSignature context_key with
  | none => .error ("Method " ++ context_key ++ " not found in API client")
  | some sig =>
    match w.apiCall context_key (build_call_params sig params) with
    | .ok v => .ok v
    | .error e => .error ("Error calling " ++ context_key ++ ": " ++ e)

/-- Embeds the loop of WriterService._get_api_data: resolve every context
key in order, storing each result under its key; the first failure
aborts.  The consultations of the enrichment provider are traced. -/
def get_api_data_go (w : World) (params : List (String × Value))
    (context_data : List (String × Value)) :
    List String → Except String (List (String × Value)) × List Event
  | [] => (.ok context_data, [])
  | ck :: rest =>
    match get_context_data w ck params with
    | .ok v =>
      let r := get_api_data_go w params (dictSet ck v context_data) rest
      (r.1, Event.apiCall ck :: r.2)
    | .error e => (.error e, [Event.apiCall ck])

/-- Embeds WriterService._get_api_data: the context data starts as a copy
of the parameters and is enriched per context key. -/
def get_api_data (w : World) (params : List (String × Value)) (context_keys : List String) :
    Except String (List (String × Value)) × List Event :=
  get_api_data_go w params params context_keys

/-- Embeds the context_keys read of _process_cached_prompt:
prompt_data.get("context_keys", []), each entry used as an operation
name. -/
def contextKeysOf (prompt_data : List (String × Value)) : List String :=
  match lookupKey "context_keys" prompt_data with
  | some (.list ks) => ks.map pyStr
  | _ => []

/-- Embeds WriterService._build_prompt_data: load the topic's content
template (a missing file raises FileNotFoundError, embedded as an error)
and format it with every context key prefixed by f; a missing key raises
ValueError. -/
def build_prompt_data (w : World) (prompt_topic : String)
    (context_data : List (String × Value)) : Except String String :=
  match w.contentTemplate prompt_topic with
  | none => .error ("FileNotFoundError: " ++ prompt_topic)
  | some content_template =>
    match pyFormatLoop (context_data.map (fun kv => ("f" ++ kv.1, kv.2))) content_template.data with
    | .ok s => .ok s
    | .error (.keyError k) => .error ("Missing required key in template: " ++ k)
    | .error fe => .error fe.pymsg

/-- Embeds WriterService._build_system: format the shared system template
with the question and the style guide. -/
def build_system (w : World) (question : String) : Except String String :=
  match pyFormatLoop [("fprompt", .str question), ("fstyle_guide", .str w.styleGuide)]
      w.systemTemplate.data with
  | .ok s => .ok s
  | .error fe => .error fe.pymsg

/-- Embeds WriterService._build_prompt: build the content body from the
topic template and the full context, format the title into the question
and build the system message. -/
def build_prompt (w : World) (prompt_data context_data : List (String × Value)) :
    Except String (String × String) :=
  match lookupKey "topic" prompt_data with
  | none => .error "KeyError: topic"
  | some topic =>
    match build_prompt_data w (pyStr topic) context_data with
    | .error e => .error e
    | .ok prompt_content =>
      match lookupKey "title" prompt_data with
      | none => .error "KeyError: title"
      | some title =>
        match pyFormatLoop context_data (pyStr title).data with
        | .error fe => .error fe.pymsg
        | .ok prompt_question =>
          match build_system w prompt_question with
          | .error e => .error e
          | .ok system => .ok (prompt_content, system)

/-- Default TTL from iq_bot_global/constants.py, CACHE_TTL.DEFAULT. -/
def CACHE_TTL_DEFAULT : Value := .int 3600

/-- Result record of WriterService._process_cached_prompt: the response
text, and the context data included only on the generation path. -/
structure GenResponse where
  response : String
  context_data : Option (List (String × Value))

/-- Embeds the generation path of WriterService._process_cached_prompt
(everything after the cache check): enrichment, content build,
generation, and the best-effort cache write guarded by the truthiness of
the cache key. -/
def process_generate (w : World) (prompt_data params : List (String × Value))
    (cache_key : Option String) (trace : List Event) :
    Except String GenResponse × List Event :=
  match get_api_data w params (contextKeysOf prompt_data) with
  | (.error e, t) => (.error e, trace ++ t)
  | (.ok context_data, t) =>
    match build_prompt w prompt_data context_data with
    | .error e => (.error e, trace ++ t)
    | .ok (content, system) =>
      match w.generateText content system with
      | .error e => (.error e, trace ++ t ++ [Event.generate])
      | .ok response =>
        let ttl := match lookupKey "ttl_seconds" prompt_data with
          | some v => v
          | none => CACHE_TTL_DEFAULT
        let events := match cache_key with
          | some key =>
            if key = "" then [Event.generate]
            else [Event.generate, Event.cacheSet key response ttl]
          | none => [Event.generate]
        (.ok { response := response, context_data := some context_data },
         trace ++ t ++ events)

/-- Embeds WriterService._process_cached_prompt: build context and cache
key; a truthy cache key is looked up and a truthy cached value is served
unmodified with no further collaborator call; everything else falls
through to the generation path.  Python truthiness makes both a None or
empty cache key and an empty cached value falsy. -/
def process_cached_prompt (w : World) (prompt_data : List (String × Value)) :
    Except String GenResponse × List Event :=
  match build_context prompt_data with
  | .error e => (.error e, [])
  | .ok (params, cache_key) =>
    match cache_key with
    | some key =>
      if key = "" then process_generate w prompt_data params cache_key []
      else
        match w.cache key with
        | some cached =>
          if cached = "" then
            process_generate w prompt_data params cache_key [Event.cacheGet key]
          else (.ok { response := cached, context_data := none }, [Event.cacheGet key])
        | none => process_generate w prompt_data params cache_key [Event.cacheGet key]
    | none => process_generate w prompt_data params cache_key []

/-- Embeds RedisService.get_cached_response: the client get either
returns an optional value or raises (embedded as Except); the except
branch turns a raised RedisError into None. -/
def get_cached_response (client_get : Except String (Option String)) : Option String :=
  match client_get with
  | .ok r => r
  | .error _ => none

/-- Embeds RedisService.set_cached_response: the setex result is passed
through and a raised RedisError becomes False. -/
def set_cached_response (client_setex : Except String Bool) : Bool :=
  match client_setex with
  | .ok b => b
  | .error _ => false

/-- Embeds RedisService.delete_cached_response: a completed delete
returns True regardless of the count, a raised RedisError becomes
False. -/
def delete_cached_response (client_delete : Except String Int) : Bool :=
  match client_delete with
  | .ok _ => true
  | .error _ => false

/-- Embeds the SCAN loop of RedisService.get_keys: the client is a cursor
function returning the next cursor and a page of keys, or raising; pages
accumulate until the cursor returns to zero and a raise anywhere
discards the partial accumulation and yields the empty list.  The fuel
bounds the iterations of the embedded loop (the Python loop is
unbounded); none means the loop did not finish within the fuel. -/
def get_keys_go (client_scan : Nat → Except String (Nat × List String)) :
    Nat → Nat → List String → Option (List String)
  | 0, _, _ => none
  | fuel + 1, cursor, keys =>
    match client_scan cursor with
    | .error _ => some []
    | .ok (next, partial_keys) =>
      if next = 0 then some (keys ++ partial_keys)
      else get_keys_go client_scan fuel next (keys ++ partial_keys)

/-- Embeds RedisService.get_keys: the scan starts at cursor zero with no
keys collected. -/
def get_keys (client_scan : Nat → Except String (Nat × List String)) (fuel : Nat) :
    Option (List String) :=
  get_keys_go client_scan fuel 0 []

theorem flatMap_map_combo (x : List (String × Value)) (n : String) (vs : List Value)
    (cart : List (List (String × Value))) :
    (vs.map (fun v => x ++ [(n, v)])).flatMap (fun c => cart.map (fun t => c ++ t)) =
      (vs.flatMap (fun v => cart.map (fun t => (n, v) :: t))).map (fun t => x ++ t) := by
  induction vs with
  | nil => simp
  | cons v vs ih => simp [ih, List.map_map, Function.comp, List.append_assoc]

theorem flatMap_singleton_combo (n : String) (vs : List Value)
    (cart : List (List (String × Value))) :
    (vs.map (fun v => [(n, v)])).flatMap (fun c => cart.map (fun t => c ++ t)) =
      vs.flatMap (fun v => cart.map (fun t => (n, v) :: t)) := by
  induction vs with
  | nil => simp
  | cons v vs ih => simp [ih, List.map_map, Function.comp]

theorem combos_foldl_eq (items : List (String × List Value)) :
    ∀ acc : List (List (String × Value)),
    items.foldl (fun combos pv =>
        combos.flatMap (fun combo => pv.2.map (fun v => combo ++ [(pv.1, v)]))) acc =
      acc.flatMap (fun combo => (cartesianProduct items).map (fun tail => combo ++ tail)) := by
  induction items with
  | nil => intro acc; simp [cartesianProduct]
  | cons pv items ih =>
    intro acc
    rw [List.foldl_cons, ih, List.flatMap_assoc]
    congr 1
    funext x
    rw [flatMap_map_combo]
    rfl

theorem length_flatMap_const {α β : Type} (l : List α) (f : α → List β) (c : Nat)
    (h : ∀ x, (f x).length = c) : (l.flatMap f).length = l.length * c := by
  induction l with
  | nil => simp
  | cons a l ih => simp [h, ih, Nat.succ_mul, Nat.add_comm]

theorem cartesianProduct_length (items : List (String × List Value)) :
    (cartesianProduct items).length = (items.map (fun pv => pv.2.length)).prod := by
  induction items with
  | nil => simp [cartesianProduct]
  | cons pv items ih =>
    show (pv.2.flatMap (fun v => (cartesianProduct items).map (fun combo => (pv.1, v) :: combo))).length = _
    rw [length_flatMap_const _ _ ((cartesianProduct items).length) (fun x => by simp)]
    simp [ih]

theorem generate_param_combinations_length (ds : List (String × List Value)) :
    (generate_param_combinations ds).length =
      max ((ds.map (fun pv => pv.2.length)).prod) 1 := by
  cases ds with
  | nil => simp [generate_param_combinations]
  | cons pv items =>
    have hlen : ((pv.2.map (fun v => [(pv.1, v)])).flatMap
        (fun combo => (cartesianProduct items).map (fun tail => combo ++ tail))).length =
        pv.2.length * (cartesianProduct items).length := by
      rw [length_flatMap_const _ _ ((cartesianProduct items).length) (fun x => by simp)]
      rw [List.length_map]
    have hprod : ((pv :: items).map (fun pv => pv.2.length)).prod =
        pv.2.length * (cartesianProduct items).length := by
      rw [cartesianProduct_length]
      simp
    rw [generate_param_combinations, combos_foldl_eq, hprod]
    cases hc : (pv.2.map (fun v => [(pv.1, v)])).flatMap
        (fun combo => (cartesianProduct items).map (fun tail => combo ++ tail)) with
    | nil =>
      rw [hc] at hlen
      simp only [List.length_nil] at hlen
      simp
      omega
    | cons c cs =>
      rw [hc] at hlen
      simp only [List.length_cons] at hlen
      simp
      omega

/-- Claim C2, corrected: the Combination Generator returns one parameter
set per element of the Cartesian product when the product is non-empty,
so exactly the product of all list lengths, and the empty mapping gives
the single empty parameter set; but when some value list is empty (the
product of lengths is zero) it still returns exactly one result, the
empty parameter set, rather than zero results. -/
theorem C2_combination_count :
    (∀ ds : List (String × List Value),
      (generate_param_combinations ds).length =
        max ((ds.map (fun pv => pv.2.length)).prod) 1) ∧
    generate_param_combinations [] = [[]] :=
  ⟨generate_param_combinations_length, rfl⟩

/-- Claim C2, counterexample to the claim as stated: for the mapping with
one parameter whose value list is empty, the product of all list lengths
is zero but the generator returns one parameter set, not zero. -/
theorem C2_counterexample :
    (generate_param_combinations [("a", [])]).length = 1 ∧
    (([("a", ([] : List Value))]).map (fun pv => pv.2.length)).prod = 0 :=
  ⟨rfl, rfl⟩

theorem cartesianProduct_ne_nil (ds : List (String × List Value))
    (h : ∀ pv ∈ ds, pv.2 ≠ []) : cartesianProduct ds ≠ [] := by
  have : (cartesianProduct ds).length ≠ 0 := by
    rw [cartesianProduct_length]
    intro hz
    rw [List.prod_eq_zero_iff] at hz
    simp only [List.mem_map] at hz
    obtain ⟨pv, hmem, hlen⟩ := hz
    exact h pv hmem (List.eq_nil_of_length_eq_zero hlen)
  intro hnil
  rw [hnil] at this
  simp at this

/-- Claim C7, corrected: for every input mapping in which every value
list is non-empty, the Combination Generator returns exactly the
nested-loop Cartesian product over the parameters in supplied order,
last-added parameter varying fastest (and, being a pure function of the
mapping, two calls with the same mapping trivially agree). -/
theorem C7_combination_order (ds : List (String × List Value))
    (h : ∀ pv ∈ ds, pv.2 ≠ []) :
    generate_param_combinations ds = cartesianProduct ds := by
  cases ds with
  | nil => rfl
  | cons pv items =>
    rw [generate_param_combinations]
    rw [combos_foldl_eq]
    have heq : (pv.2.map (fun v => [(pv.1, v)])).flatMap
        (fun combo => (cartesianProduct items).map (fun tail => combo ++ tail)) =
        cartesianProduct (pv :: items) := by
      rw [flatMap_singleton_combo]
      rfl
    rw [heq]
    have hne := cartesianProduct_ne_nil (pv :: items) h
    cases hpn : cartesianProduct (pv :: items) with
    | nil => exact absurd hpn hne
    | cons c cs => simp

/-- Claim C7, counterexample to the claim as stated: for the non-empty
mapping with one parameter whose value list is empty, the nested-loop
Cartesian product is empty but the generator returns the single empty
parameter set. -/
theorem C7_counterexample :
    generate_param_combinations [("b", [])] = [[]] ∧
    cartesianProduct [("b", [])] = [] :=
  ⟨rfl, rfl⟩

/-- Claim C7, witness for the corrected theorem at a concrete mapping. -/
theorem C7_combination_order_witness :
    generate_param_combinations [("t", [Value.str "a", Value.str "b"]), ("s", [Value.int 1])] =
      cartesianProduct [("t", [Value.str "a", Value.str "b"]), ("s", [Value.int 1])] :=
  C7_combination_order _ (by simp)

theorem pySorted_eq_of_perm {l₁ l₂ : List String} (h : l₁.Perm l₂) :
    pySorted l₁ = pySorted l₂ :=
  List.eq_of_perm_of_sorted
    ((List.perm_insertionSort _ l₁).trans (h.trans (List.perm_insertionSort _ l₂).symm))
    (List.sorted_insertionSort _ l₁) (List.sorted_insertionSort _ l₂)

/-- Claim C1: the derived prompt id depends on the supplied parameters
only through the multiset of their identity strings (the id field of a
dict value, else its textual form), because the identity strings are
sorted lexicographically and joined with a colon before the name-based
derivation namespaced by the template id; and the empty parameter list
derives the id from the sentinel name default.  uuid5 is universally
quantified, so this holds for any name-based derivation function. -/
theorem C1_deterministic_id (uuid5 : String → String → String) (template_id : String)
    (ps₁ ps₂ : List (String × Value))
    (h : (ps₁.map (fun p => identityString p.2)).Perm
         (ps₂.map (fun p => identityString p.2))) :
    derive_prompt_id uuid5 template_id ps₁ = derive_prompt_id uuid5 template_id ps₂ ∧
    derive_prompt_id uuid5 template_id [] = uuid5 template_id "default" := by
  constructor
  · simp only [derive_prompt_id]
    have hsort := pySorted_eq_of_perm h
    have hemp : (ps₁.map (fun p => identityString p.2)).isEmpty =
        (ps₂.map (fun p => identityString p.2)).isEmpty := by
      have hl := h.length_eq
      cases h₁ : ps₁.map (fun p => identityString p.2) with
      | nil =>
        rw [h₁] at hl
        cases h₂ : ps₂.map (fun p => identityString p.2) with
        | nil => rfl
        | cons b m => rw [h₂] at hl; simp at hl
      | cons a l =>
        rw [h₁] at hl
        cases h₂ : ps₂.map (fun p => identityString p.2) with
        | nil => rw [h₂] at hl; simp at hl
        | cons b m => rfl
    rw [hsort, hemp]
  · rfl

/-- Claim C1, witness at a concrete template id, two parameter lists that
permute each other, and a concrete derivation function. -/
theorem C1_deterministic_id_witness :
    derive_prompt_id (fun ns n => ns ++ "/" ++ n) "T"
        [("a", Value.str "x"), ("b", Value.str "y")] =
      derive_prompt_id (fun ns n => ns ++ "/" ++ n) "T"
        [("b", Value.str "y"), ("a", Value.str "x")] ∧
    derive_prompt_id (fun ns n => ns ++ "/" ++ n) "T" [] =
      (fun ns n => ns ++ "/" ++ n) "T" "default" :=
  C1_deterministic_id _ "T" _ _
    (by simp only [List.map_cons, List.map_nil]; exact List.Perm.swap _ _ _)

theorem find_eq_head_aux (p : String) :
    ∀ n : Nat,
      (∀ v : Value, sizeOf v ≤ n →
        find_param_in_dict p v = (dfsMatches p v).head?) ∧
      (∀ es : List (String × Value), sizeOf es ≤ n →
        findInEntries p es = (dfsEntries p es).head?) ∧
      (∀ vs : List Value, sizeOf vs ≤ n →
        findInList p vs = (dfsList p vs).head?) := by
  intro n
  induction n using Nat.strong_induction_on with
  | _ n ih =>
    refine ⟨?_, ?_, ?_⟩
    · intro v hv
      cases v with
      | str s => simp [find_param_in_dict, dfsMatches]
      | int m => simp [find_param_in_dict, dfsMatches]
      | list vs => simp [find_param_in_dict, dfsMatches]
      | dict es =>
        have hes : sizeOf es < n := by
          simp only [Value.dict.sizeOf_spec] at hv
          omega
        cases hl : lookupKey p es with
        | some v₂ =>
          cases v₂ with
          | dict inner =>
            cases hi : lookupKey p inner with
            | some sub => simp [find_param_in_dict, dfsMatches, hl, hi]
            | none => simp [find_param_in_dict, dfsMatches, hl, hi]
          | str s => simp [find_param_in_dict, dfsMatches, hl]
          | int m => simp [find_param_in_dict, dfsMatches, hl]
          | list l => simp [find_param_in_dict, dfsMatches, hl]
        | none =>
          rw [find_param_in_dict, dfsMatches, hl]
          exact (ih (sizeOf es) hes).2.1 es (le_refl _)
    · intro es hes
      cases es with
      | nil => simp [findInEntries, dfsEntries]
      | cons kv rest =>
        obtain ⟨k, v⟩ := kv
        have hrest : sizeOf rest < n := by
          simp only [List.cons.sizeOf_spec, Prod.mk.sizeOf_spec] at hes
          omega
        have h₂ := (ih (sizeOf rest) hrest).2.1 rest (le_refl _)
        cases v with
        | dict es₂ =>
          have hlt : sizeOf (Value.dict es₂) < n := by
            simp only [List.cons.sizeOf_spec, Prod.mk.sizeOf_spec,
              Value.dict.sizeOf_spec] at hes ⊢
            omega
          have h₁ := (ih _ hlt).1 (Value.dict es₂) (le_refl _)
          rw [findInEntries, dfsEntries, h₁]
          cases hm : dfsMatches p (Value.dict es₂) with
          | nil => simp [h₂]
          | cons x xs => simp
        | list vs =>
          have hlt : sizeOf vs < n := by
            simp only [List.cons.sizeOf_spec, Prod.mk.sizeOf_spec,
              Value.list.sizeOf_spec] at hes
            omega
          have h₁ := (ih _ hlt).2.2 vs (le_refl _)
          rw [findInEntries, dfsEntries, h₁]
          cases hm : dfsList p vs with
          | nil => simp [h₂]
          | cons x xs => simp
        | str s =>
          simp only [findInEntries, dfsEntries]
          simpa using h₂
        | int m =>
          simp only [findInEntries, dfsEntries]
          simpa using h₂
    · intro vs hvs
      cases vs with
      | nil => simp [findInList, dfsList]
      | cons v rest =>
        have hrest : sizeOf rest < n := by
          simp only [List.cons.sizeOf_spec] at hvs
          omega
        have h₂ := (ih (sizeOf rest) hrest).2.2 rest (le_refl _)
        cases v with
        | dict es₂ =>
          have hlt : sizeOf (Value.dict es₂) < n := by
            simp only [List.cons.sizeOf_spec, Value.dict.sizeOf_spec] at hvs ⊢
            omega
          have h₁ := (ih _ hlt).1 (Value.dict es₂) (le_refl _)
          rw [findInList, dfsList, h₁]
          cases hm : dfsMatches p (Value.dict es₂) with
          | nil => simp [h₂]
          | cons x xs => simp
        | list vs₂ =>
          simp only [findInList, dfsList]
          simpa using h₂
        | str s =>
          simp only [findInList, dfsList]
          simpa using h₂
        | int m =>
          simp only [findInList, dfsList]
          simpa using h₂

/-- The resolver returns exactly the head of the list of all matches in
depth-first declaration order. -/
theorem find_param_first_match (p : String) (v : Value) :
    find_param_in_dict p v = (dfsMatches p v).head? :=
  (find_eq_head_aux p (sizeOf v)).1 v (le_refl _)

/-- Claim C4: the Nested Parameter Resolver checks direct keys first with
one level of same-key unwrapping, and otherwise recurses
depth-first over dict entries and dict elements of lists in declaration
order, returning the first match of that traversal and not-found when it
is exhausted: the resolver equals the head of the depth-first match
list.  Concretely, on {team: {id: T1, name: Eagles}} the placeholder
team yields the whole map, on a map that itself carries a team sub-key
it yields that sub-value, a placeholder found in a dict inside a
list-valued entry is resolved there, and an absent placeholder is
not-found. -/
theorem C4_nested_resolver :
    (∀ p v, find_param_in_dict p v = (dfsMatches p v).head?) ∧
    find_param_in_dict "team"
        (.dict [("team", .dict [("id", .str "T1"), ("name", .str "Eagles")])]) =
      some (.dict [("id", .str "T1"), ("name", .str "Eagles")]) ∧
    find_param_in_dict "team"
        (.dict [("team", .dict [("team", .str "X"), ("id", .str "T1")])]) =
      some (.str "X") ∧
    find_param_in_dict "x"
        (.dict [("a", .list [.str "s", .dict [("x", .str "v")]])]) =
      some (.str "v") ∧
    find_param_in_dict "compared_team" (.dict [("team", .str "A")]) = none := by
  refine ⟨find_param_first_match, ?_, ?_, ?_, ?_⟩
  · simp [find_param_in_dict, lookupKey]
  · simp [find_param_in_dict, lookupKey]
  · simp [find_param_in_dict, findInEntries, findInList, lookupKey]
  · simp [find_param_in_dict, findInEntries, lookupKey]

theorem extractLoop_field_empty {rest inner rest₂ : List Char}
    (htf : takeField rest = some (inner, rest₂)) (he : inner.isEmpty = true) :
    extractLoop ('{' :: rest) = extractLoop rest := by
  have he₂ : inner = [] := by simpa using he
  rw [extractLoop, if_pos rfl]
  split
  · rename_i inner₂ rest₃ heq
    rw [htf] at heq
    cases heq
    simp [he₂]
  · rfl

theorem extractLoop_unterminated {rest : List Char} (htf : takeField rest = none) :
    extractLoop ('{' :: rest) = extractLoop rest := by
  rw [extractLoop, if_pos rfl]
  split
  · rename_i inner₂ rest₃ heq
    rw [htf] at heq
    simp at heq
  · rfl

theorem snf_nil : simpleNamedFields [] = true := by
  rw [simpleNamedFields]

theorem lookupKey_dictSet (k₂ k : String) (v : Value) :
    ∀ d : List (String × Value),
      lookupKey k₂ (dictSet k v d) = if k = k₂ then some v else lookupKey k₂ d := by
  intro d
  induction d with
  | nil => simp [dictSet, lookupKey]
  | cons kv rest ih =>
    obtain ⟨k₁, v₁⟩ := kv
    by_cases hk : k₁ = k
    · subst hk
      by_cases h₂ : k₁ = k₂ <;> simp [dictSet, lookupKey, h₂]
    · simp only [dictSet, if_neg hk, lookupKey]
      by_cases h₂ : k₁ = k₂
      · subst h₂
        have h₃ : ¬k = k₁ := fun h => hk h.symm
        simp [h₃]
      · simp [h₂, ih]

theorem foldl_skip_filterMap :
    ∀ (ctxs : List PromptContext) (acc : List (String × Value)),
      ctxs.foldl (fun params ctx =>
        if ctx.values.isEmpty then params
        else dictSet (rstripChar 's' ctx.name) ctx.values.headI params) acc =
      (ctxs.filterMap (fun c =>
        if c.values.isEmpty then none
        else some (rstripChar 's' c.name, c.values.headI))).foldl
        (fun d kv => dictSet kv.1 kv.2 d) acc := by
  intro ctxs
  induction ctxs with
  | nil => intro acc; rfl
  | cons c ctxs ih =>
    intro acc
    by_cases hc : c.values.isEmpty = true
    · simp [List.foldl_cons, List.filterMap_cons, hc, ih]
    · simp [List.foldl_cons, List.filterMap_cons, hc, ih]

theorem extract_context_params_id (prompt_id : Value) (ctxs : List PromptContext) :
    ∃ v, lookupKey "id" (extract_context_params prompt_id ctxs) = some v := by
  suffices h : ∀ (ctxs : List PromptContext) (acc : List (String × Value)),
      (∃ v, lookupKey "id" acc = some v) →
      ∃ v, lookupKey "id" (ctxs.foldl (fun params ctx =>
        if ctx.values.isEmpty then params
        else dictSet (rstripChar 's' ctx.name) ctx.values.headI params) acc) = some v by
    exact h ctxs _ ⟨prompt_id, by simp [lookupKey]⟩
  intro ctxs
  induction ctxs with
  | nil => intro acc h; exact h
  | cons c ctxs ih =>
    intro acc h
    rw [List.foldl_cons]
    apply ih
    by_cases hc : c.values.isEmpty = true
    · simpa [hc] using h
    · obtain ⟨v, hv⟩ := h
      simp only [if_neg hc]
      rw [lookupKey_dictSet]
      by_cases hk : rstripChar 's' c.name = "id"
      · exact ⟨_, by rw [if_pos hk]⟩
      · exact ⟨v, by rw [if_neg hk]; exact hv⟩

/-- Claim C10, amended: the context builder turns every record field
into one potential parameter assignment, in field order and with Python
dict overwrite semantics: the key is the field name with every trailing
s stripped (teams becomes team and press becomes pre), the value is the
first element of the field's value list (a non-list field counting as
its own singleton list), and a field with an empty value list
contributes nothing; the assignments start from the record's own id
under the key id, so a parameter id is always present, but it holds the
record's own id only until a field whose stripped name is id (such as
ids) overwrites it. -/
theorem C10_context_params (prompt_id : Value) (ctxs : List PromptContext) :
    extract_context_params prompt_id ctxs =
      pythonDictOf (("id", prompt_id) ::
        ctxs.filterMap (fun c =>
          if c.values.isEmpty then none
          else some (rstripChar 's' c.name, c.values.headI))) ∧
    (∃ v, lookupKey "id" (extract_context_params prompt_id ctxs) = some v) ∧
    rstripChar 's' "teams" = "team" ∧ rstripChar 's' "press" = "pre" := by
  refine ⟨?_, extract_context_params_id prompt_id ctxs, rfl, rfl⟩
  rw [extract_context_params, pythonDictOf, List.foldl_cons]
  exact foldl_skip_filterMap ctxs _

/-- Claim C10, witness: the amended theorem at a concrete record whose
fields exercise stripping, first-element selection and the empty-list
skip. -/
theorem C10_context_params_witness :
    extract_context_params (.str "P")
        [⟨"teams", [.str "A", .str "B"]⟩, ⟨"seasons", []⟩] =
      pythonDictOf (("id", .str "P") ::
        ([⟨"teams", [.str "A", .str "B"]⟩, ⟨"seasons", ([] : List Value)⟩] :
            List PromptContext).filterMap (fun c =>
          if c.values.isEmpty then none
          else some (rstripChar 's' c.name, c.values.headI))) ∧
    (∃ v, lookupKey "id" (extract_context_params (.str "P")
        [⟨"teams", [.str "A", .str "B"]⟩, ⟨"seasons", []⟩]) = some v) ∧
    rstripChar 's' "teams" = "team" ∧ rstripChar 's' "press" = "pre" :=
  C10_context_params (.str "P") [⟨"teams", [.str "A", .str "B"]⟩, ⟨"seasons", []⟩]

/-- Claim C10, counterexample to "the record's own id is always included
under the key id": a record field named ids strips to id and overwrites
the record id in the built context. -/
theorem C10_counterexample :
    build_context [("id", .str "P"), ("ids", .list [.str "X"])] =
      .ok ([("id", .str "X")], none) ∧ Value.str "X" ≠ Value.str "P" := by
  constructor
  · rfl
  · simp

/-- Concrete collaborator world for the cache-hit scenario: the cache
returns the stored text for every key. -/
def hitWorld : World where
  cache := fun _ => some "stored"
  apiSignature := fun _ => none
  apiCall := fun _ _ => .error "down"
  generateText := fun _ _ => .ok "gen"
  contentTemplate := fun t => if t = "T" then some "body" else none
  systemTemplate := "sys"
  styleGuide := "sg"

/-- Concrete collaborator world whose cache holds the empty string under
every key. -/
def emptyHitWorld : World where
  cache := fun _ => some ""
  apiSignature := fun _ => none
  apiCall := fun _ _ => .error "down"
  generateText := fun _ _ => .ok "gen"
  contentTemplate := fun t => if t = "T" then some "body" else none
  systemTemplate := "sys"
  styleGuide := "sg"

/-- Concrete collaborator world with an empty cache and an enrichment
provider that knows no operation. -/
def failWorld : World where
  cache := fun _ => none
  apiSignature := fun _ => none
  apiCall := fun _ _ => .error "down"
  generateText := fun _ _ => .ok "gen"
  contentTemplate := fun _ => some "body"
  systemTemplate := "sys"
  styleGuide := "sg"

/-- Claim C5, amended: a cache hit with non-empty stored text under a
truthy cache key is served unmodified: the orchestrator returns exactly
the stored text with no context data, and its only collaborator call is
the single cache get — no enrichment call, no generation, no cache
write.  Python truthiness makes an empty stored text fall through to
regeneration, hence the non-empty hypothesis. -/
theorem C5_cache_hit_served (w : World) (prompt_data params : List (String × Value))
    (key text : String)
    (hb : build_context prompt_data = .ok (params, some key))
    (hkey : key ≠ "")
    (hc : w.cache key = some text) (htext : text ≠ "") :
    process_cached_prompt w prompt_data =
      (.ok { response := text, context_data := none }, [Event.cacheGet key]) := by
  rw [process_cached_prompt, hb]
  simp [hkey, hc, htext]

/-- Claim C5, witness at a concrete record and world. -/
theorem C5_cache_hit_served_witness :
    process_cached_prompt hitWorld [("id", .str "P"), ("cache_key", .str "k")] =
      (.ok { response := "stored", context_data := none }, [Event.cacheGet "k"]) :=
  C5_cache_hit_served hitWorld _
    [("id", .str "P"), ("cache_key", .str "k")] "k" "stored"
    (by simp [build_context, lookupKey, extract_context_params, formatted_contexts,
      dictSet, pyStr, pyFormatLoop, takeField, Except.map,
      show rstripChar 's' "id" = "id" from rfl,
      show rstripChar 's' "cache_key" = "cache_key" from rfl])
    (by simp) rfl (by simp)

/-- Claim C5, counterexample to the claim as stated: a stored empty text
is a cache hit for the store, but the orchestrator treats it as a miss
(Python truthiness of the empty string) and regenerates — the trace
shows the generation call and a cache write, and the response is the
newly generated text, not the stored one. -/
theorem C5_counterexample :
    emptyHitWorld.cache "k" = some "" ∧
    process_cached_prompt emptyHitWorld
        [("id", .str "P"), ("cache_key", .str "k"), ("topic", .str "T"),
         ("title", .str "t")] =
      (.ok { response := "gen",
             context_data := some [("id", .str "P"), ("cache_key", .str "k"),
               ("topic", .str "T"), ("title", .str "t")] },
       [Event.cacheGet "k", Event.generate,
        Event.cacheSet "k" "gen" CACHE_TTL_DEFAULT]) := by
  constructor
  · rfl
  · simp [process_cached_prompt, process_generate, build_context, lookupKey,
      extract_context_params, formatted_contexts, dictSet, pyStr, pyFormatLoop,
      takeField, Except.map, contextKeysOf, get_api_data, get_api_data_go,
      build_prompt, build_prompt_data, build_system, emptyHitWorld,
      CACHE_TTL_DEFAULT,
      show rstripChar 's' "id" = "id" from rfl,
      show rstripChar 's' "cache_key" = "cache_key" from rfl,
      show rstripChar 's' "topic" = "topic" from rfl,
      show rstripChar 's' "title" = "title" from rfl]

theorem get_api_data_go_events (w : World) (params : List (String × Value)) :
    ∀ (keys : List String) (ctx : List (String × Value)),
      ∀ ev ∈ (get_api_data_go w params ctx keys).2, ∃ ck, ev = Event.apiCall ck := by
  intro keys
  induction keys with
  | nil => intro ctx ev hev; simp [get_api_data_go] at hev
  | cons ck keys ih =>
    intro ctx ev hev
    rw [get_api_data_go] at hev
    cases hg : get_context_data w ck params with
    | ok v =>
      rw [hg] at hev
      simp at hev
      rcases hev with heq | hmem
      · exact ⟨ck, heq⟩
      · exact ih _ ev hmem
    | error e =>
      rw [hg] at hev
      simp at hev
      exact ⟨ck, hev⟩

theorem get_api_data_go_error (w : World) (params : List (String × Value)) :
    ∀ (keys : List String) (ctx : List (String × Value)),
      (∃ ck ∈ keys, ∃ e, get_context_data w ck params = .error e) →
      ∃ e₂, (get_api_data_go w params ctx keys).1 = .error e₂ := by
  intro keys
  induction keys with
  | nil => intro ctx h; simp at h
  | cons ck keys ih =>
    intro ctx h
    rw [get_api_data_go]
    cases hg : get_context_data w ck params with
    | error e => exact ⟨e, by simp⟩
    | ok v =>
      obtain ⟨ck₂, hmem, e, he⟩ := h
      rcases List.mem_cons.mp hmem with heq | hmem₂
      · subst heq
        rw [hg] at he
        cases he
      · simpa using ih (dictSet ck v ctx) ⟨ck₂, hmem₂, e, he⟩

theorem get_api_data_go_ok (w : World) (params : List (String × Value)) :
    ∀ (keys : List String) (ctx d : List (String × Value)),
      (get_api_data_go w params ctx keys).1 = .ok d →
      ∀ ck ∈ keys, ∃ r, get_context_data w ck params = .ok r := by
  intro keys
  induction keys with
  | nil => intro ctx d _ ck hck; cases hck
  | cons ck₁ keys ih =>
    intro ctx d hok ck hck
    rw [get_api_data_go] at hok
    cases hg : get_context_data w ck₁ params with
    | error e =>
      rw [hg] at hok
      simp at hok
    | ok v =>
      rw [hg] at hok
      simp at hok
      rcases List.mem_cons.mp hck with heq | hmem
      · subst heq
        exact ⟨v, hg⟩
      · exact ih _ d hok ck hmem

theorem process_generate_error (w : World) (prompt_data params : List (String × Value))
    (cache_key : Option String) (trace : List Event)
    (h : ∃ ck ∈ contextKeysOf prompt_data, ∃ e, get_context_data w ck params = .error e) :
    (∃ e, (process_generate w prompt_data params cache_key trace).1 = .error e) ∧
    (process_generate w prompt_data params cache_key trace).2 =
      trace ++ (get_api_data w params (contextKeysOf prompt_data)).2 := by
  obtain ⟨e₂, he₂⟩ := get_api_data_go_error w params (contextKeysOf prompt_data) params h
  rcases hp : get_api_data w params (contextKeysOf prompt_data) with ⟨r, t⟩
  have hgo : get_api_data_go w params params (contextKeysOf prompt_data) = (r, t) := hp
  rw [hgo] at he₂
  simp only at he₂
  subst he₂
  rw [process_generate, hp]
  exact ⟨⟨e₂, rfl⟩, rfl⟩

theorem process_generate_cacheSet (w : World) (prompt_data params : List (String × Value))
    (cache_key : Option String) (trace : List Event) (k v : String) (ttl : Value)
    (htr : ∀ k₂ v₂ t₂, Event.cacheSet k₂ v₂ t₂ ∉ trace)
    (hset : Event.cacheSet k v ttl ∈ (process_generate w prompt_data params cache_key trace).2) :
    ∀ ck ∈ contextKeysOf prompt_data, ∃ r, get_context_data w ck params = .ok r := by
  rcases hp : get_api_data w params (contextKeysOf prompt_data) with ⟨r, t⟩
  cases r with
  | ok context_data =>
    intro ck hck
    exact get_api_data_go_ok w params (contextKeysOf prompt_data) params context_data
      (by rw [show get_api_data_go w params params (contextKeysOf prompt_data) = (.ok context_data, t) from hp]) ck hck
  | error e =>
    exfalso
    rw [process_generate, hp] at hset
    simp at hset
    rcases hset with hmem | hmem
    · exact htr k v ttl hmem
    · obtain ⟨ck, hck⟩ := get_api_data_go_events w params (contextKeysOf prompt_data) params
        (Event.cacheSet k v ttl) (by rw [show get_api_data_go w params params (contextKeysOf prompt_data) = (.error e, t) from hp]; exact hmem)
      cases hck

/-- Claim C6: given the parameters and cache key built for a record,
when no truthy cache hit short-circuits the run, failure to resolve any
of the record's context keys — unknown operation name or failing call —
makes the orchestrator abort that instantiation with an error and write
nothing to the cache; and in full generality a cache write only ever
happens when every context key resolved successfully. -/
theorem C6_context_failure_aborts (w : World) (prompt_data params : List (String × Value))
    (cache_key : Option String)
    (hb : build_context prompt_data = .ok (params, cache_key)) :
    ((∀ key t, cache_key = some key → key ≠ "" → w.cache key = some t → t = "") →
      (∃ ck ∈ contextKeysOf prompt_data, ∃ e, get_context_data w ck params = .error e) →
      (∃ e, (process_cached_prompt w prompt_data).1 = .error e) ∧
      ∀ k v ttl, Event.cacheSet k v ttl ∉ (process_cached_prompt w prompt_data).2) ∧
    (∀ k v ttl, Event.cacheSet k v ttl ∈ (process_cached_prompt w prompt_data).2 →
      ∀ ck ∈ contextKeysOf prompt_data, ∃ r, get_context_data w ck params = .ok r) := by
  have hout1 : ∀ (ck₀ : Option String) (tr : List Event),
      (∀ k v ttl, Event.cacheSet k v ttl ∉ tr) →
      (∃ ck ∈ contextKeysOf prompt_data, ∃ e, get_context_data w ck params = .error e) →
      (∃ e, (process_generate w prompt_data params ck₀ tr).1 = .error e) ∧
      ∀ k v ttl, Event.cacheSet k v ttl ∉ (process_generate w prompt_data params ck₀ tr).2 := by
    intro ck₀ tr htr hfail
    obtain ⟨⟨e, he⟩, htrace⟩ := process_generate_error w prompt_data params ck₀ tr hfail
    refine ⟨⟨e, he⟩, ?_⟩
    intro k v ttl hmem
    rw [htrace] at hmem
    rcases List.mem_append.mp hmem with hm | hm
    · exact htr k v ttl hm
    · obtain ⟨ck₂, hck⟩ :=
        get_api_data_go_events w params (contextKeysOf prompt_data) params _ hm
      cases hck
  have hout2 : ∀ (ck₀ : Option String) (tr : List Event),
      (∀ k v ttl, Event.cacheSet k v ttl ∉ tr) →
      ∀ k v ttl, Event.cacheSet k v ttl ∈ (process_generate w prompt_data params ck₀ tr).2 →
      ∀ ck ∈ contextKeysOf prompt_data, ∃ r, get_context_data w ck params = .ok r :=
    fun ck₀ tr htr k v ttl hset =>
      process_generate_cacheSet w prompt_data params ck₀ tr k v ttl htr hset
  have hnil : ∀ k v ttl, Event.cacheSet k v ttl ∉ ([] : List Event) := by
    intro k v ttl h
    simp at h
  cases cache_key with
  | none =>
    have hred : process_cached_prompt w prompt_data =
        process_generate w prompt_data params none [] := by
      simp only [process_cached_prompt, hb]
    rw [hred]
    exact ⟨fun _ hfail => hout1 none [] hnil hfail, fun k v ttl => hout2 none [] hnil k v ttl⟩
  | some key =>
    have hget : ∀ k v ttl, Event.cacheSet k v ttl ∉ [Event.cacheGet key] := by
      intro k v ttl h
      simp at h
    by_cases hk : key = ""
    · have hred : process_cached_prompt w prompt_data =
          process_generate w prompt_data params (some key) [] := by
        simp only [process_cached_prompt, hb, hk, ite_true]
      rw [hred]
      exact ⟨fun _ hfail => hout1 (some key) [] hnil hfail,
        fun k v ttl => hout2 (some key) [] hnil k v ttl⟩
    · cases hcache : w.cache key with
      | none =>
        have hred : process_cached_prompt w prompt_data =
            process_generate w prompt_data params (some key) [Event.cacheGet key] := by
          simp only [process_cached_prompt, hb, hk, hcache, ite_true, ite_false]
        rw [hred]
        exact ⟨fun _ hfail => hout1 (some key) [Event.cacheGet key] hget hfail,
          fun k v ttl => hout2 (some key) [Event.cacheGet key] hget k v ttl⟩
      | some t =>
        by_cases ht : t = ""
        · have hred : process_cached_prompt w prompt_data =
              process_generate w prompt_data params (some key) [Event.cacheGet key] := by
            simp only [process_cached_prompt, hb, hk, hcache, ht, ite_true, ite_false]
          rw [hred]
          exact ⟨fun _ hfail => hout1 (some key) [Event.cacheGet key] hget hfail,
            fun k v ttl => hout2 (some key) [Event.cacheGet key] hget k v ttl⟩
        · have hred : process_cached_prompt w prompt_data =
              (.ok { response := t, context_data := none }, [Event.cacheGet key]) := by
            simp only [process_cached_prompt, hb, hk, hcache, ht, ite_true, ite_false]
          rw [hred]
          constructor
          · intro hmiss _
            exact absurd (hmiss key t rfl hk hcache) ht
          · intro k v ttl hset
            exact absurd hset (hget k v ttl)

/-- Claim C6, witness: a record with one context key in a world whose
provider knows no operation; the run aborts with the method-not-found
error and the trace holds no cache write. -/
theorem C6_context_failure_aborts_witness :
    ((∀ key t, (none : Option String) = some key → key ≠ "" →
        failWorld.cache key = some t → t = "") →
      (∃ ck ∈ contextKeysOf [("id", Value.str "P"), ("context_keys", .list [.str "op"])],
        ∃ e, get_context_data failWorld ck
          [("id", Value.str "P"), ("context_key", Value.str "op")] = .error e) →
      (∃ e, (process_cached_prompt failWorld
        [("id", Value.str "P"), ("context_keys", .list [.str "op"])]).1 = .error e) ∧
      ∀ k v ttl, Event.cacheSet k v ttl ∉ (process_cached_prompt failWorld
        [("id", Value.str "P"), ("context_keys", .list [.str "op"])]).2) ∧
    (∀ k v ttl, Event.cacheSet k v ttl ∈ (process_cached_prompt failWorld
        [("id", Value.str "P"), ("context_keys", .list [.str "op"])]).2 →
      ∀ ck ∈ contextKeysOf [("id", Value.str "P"), ("context_keys", .list [.str "op"])],
        ∃ r, get_context_data failWorld ck
          [("id", Value.str "P"), ("context_key", Value.str "op")] = .ok r) :=
  C6_context_failure_aborts failWorld
    [("id", Value.str "P"), ("context_keys", .list [.str "op"])]
    [("id", Value.str "P"), ("context_key", Value.str "op")] none
    (by simp [build_context, lookupKey, extract_context_params, formatted_contexts,
      dictSet, show rstripChar 's' "id" = "id" from rfl,
      show rstripChar 's' "context_keys" = "context_key" from rfl])

/-- Claim C9: every Cache Store Adapter operation catches a store-level
failure rather than propagating it: a raising get surfaces as None, a
raising set returns False, a raising delete returns False, and a raise
at any iteration of the cursor scan loop discards even the pages already
accumulated and returns the empty key list. -/
theorem C9_best_effort_cache (e : String) (fuel cursor : Nat) (keys : List String)
    (client_scan : Nat → Except String (Nat × List String))
    (hscan : client_scan cursor = .error e) :
    get_cached_response (.error e) = none ∧
    set_cached_response (.error e) = false ∧
    delete_cached_response (.error e) = false ∧
    get_keys_go client_scan (fuel + 1) cursor keys = some [] := by
  refine ⟨rfl, rfl, rfl, ?_⟩
  rw [get_keys_go, hscan]

/-- Claim C9, witness: a client whose scan raises at once, applied in the
middle of a loop that has already accumulated a page. -/
theorem C9_best_effort_cache_witness :
    get_cached_response (.error "boom") = none ∧
    set_cached_response (.error "boom") = false ∧
    delete_cached_response (.error "boom") = false ∧
    get_keys_go (fun _ => .error "boom") (3 + 1) 5 ["iq:prompt-response:a"] = some [] :=
  C9_best_effort_cache "boom" 3 5 ["iq:prompt-response:a"] (fun _ => .error "boom") rfl

end IqBot
